import Mathlib

/-!
Shallow embedding of the Loft73 webhook server's matching-and-retrieval
subsystem (src/server.js, src/unnamed/part_000, part_001, part_002).

The JavaScript string primitives used by the matcher (`toLowerCase`,
`toUpperCase`, `trim`, `includes`, `split`, `replace`) are modelled on
`List Char` in their ASCII fragment, which is the fragment exercised by
the product titles and SKUs this code handles.  JS `Array.prototype.sort`
with a consistent comparator is specified to be stable; it is modelled by
a stable insertion sort.
-/

namespace Loft73

/-! ### Data model (Shopify product / variant shapes, CSV query records) -/

structure Variant where
  id : Nat := 0
  sku : Option String := none
  inventory_item_id : Option Nat := none
  inventory_quantity : Option Int := none
  available : Option Int := none
  deriving DecidableEq, Repr

structure Product where
  id : Nat := 0
  title : Option String := none
  variants : List Variant := []
  deriving DecidableEq, Repr

structure CsvProduct where
  name : Option String := none
  sku : Option String := none
  deriving DecidableEq, Repr

/-- The reason strings pushed by part_000's `findMatches` are template
strings carrying the matched variation; they are modelled by a tagged
value carrying that payload. -/
inductive MatchReason where
  | nameMatch (variation : String)
  | skuMatch (skuVar : String)
  deriving DecidableEq, Repr

/-- One element of the `matches` array built by part_000's `findMatches`. -/
structure MatchEntry where
  shopifyProduct : Product
  matchScore : Nat
  matchReasons : List MatchReason
  deriving DecidableEq, Repr

/-! ### JS string primitives (ASCII model) -/

/-- ASCII fragment of the JS `\s` character class. -/
def isJsWs (c : Char) : Bool :=
  decide (c.toNat = 9 ∨ c.toNat = 10 ∨ c.toNat = 11 ∨ c.toNat = 12 ∨ c.toNat = 13 ∨ c.toNat = 32)

/-- Character class `[\s-]` used by server.js to clean SKUs (45 = hyphen). -/
def isWsDash (c : Char) : Bool :=
  isJsWs c || decide (c.toNat = 45)

/-- JS `String.prototype.toLowerCase` (ASCII fragment). -/
def jsLower (s : String) : String := ⟨s.data.map Char.toLower⟩

/-- JS `String.prototype.toUpperCase` (ASCII fragment). -/
def jsUpper (s : String) : String := ⟨s.data.map Char.toUpper⟩

def trimList (l : List Char) : List Char :=
  ((l.dropWhile isJsWs).reverse.dropWhile isJsWs).reverse

/-- JS `String.prototype.trim`. -/
def jsTrim (s : String) : String := ⟨trimList s.data⟩

/-- JS `String.prototype.includes`: `pat` occurs contiguously in `s`. -/
def containsList (s pat : List Char) : Bool :=
  match s with
  | [] => pat.isEmpty
  | x :: xs => pat.isPrefixOf (x :: xs) || containsList xs pat

def containsStr (s pat : String) : Bool := containsList s.data pat.data

/-- JS `String.prototype.replace` with a string pattern: replaces the
first occurrence only (the whole string is returned unchanged when the
pattern does not occur). -/
def replaceFirstList (pat rep : List Char) : List Char → List Char
  | [] => if pat.isEmpty then rep else []
  | x :: xs =>
    if pat.isPrefixOf (x :: xs) then rep ++ List.drop pat.length (x :: xs)
    else x :: replaceFirstList pat rep xs

def jsReplaceFirst (s pat rep : String) : String :=
  ⟨replaceFirstList pat.data rep.data s.data⟩

/-- Fuel-indexed worker for JS `String.prototype.split` with a nonempty
string separator.  Each step consumes at least one character, so fuel
equal to the subject's length suffices. -/
def splitListF (sep : List Char) : Nat → List Char → List (List Char)
  | _, [] => [[]]
  | 0, s => [s]
  | fuel+1, x :: xs =>
    if !sep.isEmpty && sep.isPrefixOf (x :: xs) then
      [] :: splitListF sep fuel (List.drop (sep.length - 1) xs)
    else
      match splitListF sep fuel xs with
      | [] => [[x]]
      | seg :: rest => (x :: seg) :: rest

/-- JS `String.prototype.split` (nonempty separator). -/
def jsSplit (s sep : String) : List String :=
  (splitListF sep.data s.data.length s.data).map (fun l => ⟨l⟩)

/-- JS `String.prototype.replace` with a global single-character regex,
i.e. remove every occurrence of the character (used by part_000 to drop
all spaces, resp. all hyphens, from the CSV SKU). -/
def removeAllChar (c : Char) (s : String) : String :=
  ⟨s.data.filter (fun d => d != c)⟩

/-! ### part_000 matcher: `findMatches` (lines 132-200) -/

/-- part_000 lines 140-148: the variations generated from the CSV name. -/
def nameVariations (csvName : String) : List String :=
  [csvName,
   jsReplaceFirst csvName "LOFT.73 - " "",
   jsReplaceFirst csvName "LOFT.73" "LOFT73",
   jsReplaceFirst csvName " - " " ",
   (match (jsSplit csvName " - ").get? 1 with
    | some seg => if seg = "" then csvName else seg
    | none => csvName),
   jsLower csvName,
   jsUpper csvName]

/-- part_000 lines 163-171: the name block; the first truthy variation
contained in the lower-cased title scores 10 and pushes one reason, then
the loop breaks. -/
def nameCheck (csvName : String) (title : Option String) : Nat × List MatchReason :=
  let shopifyTitle := title.getD ""
  match (nameVariations csvName).find?
      (fun v => v != "" && containsStr (jsLower shopifyTitle) (jsLower v)) with
  | some v => (10, [MatchReason.nameMatch v])
  | none => (0, [])

/-- part_000 lines 151-157: SKU variations, with JS `filter(Boolean)`
dropping the `undefined` out-of-range index and empty strings. -/
def skuVariations (csvSku : String) : List String :=
  (([some csvSku,
     (jsSplit csvSku " - ").get? 0,
     (jsSplit csvSku " - ").get? 1,
     some (removeAllChar ' ' csvSku),
     some (removeAllChar '-' csvSku)] : List (Option String)).filterMap id).filter
    (fun v => v != "")

/-- part_000 lines 176-186: for one variant, the first qualifying SKU
variation scores 20 and pushes one reason, then the inner loop breaks. -/
def variantSkuCheck (skuVars : List String) (variantSku : String) : Nat × List MatchReason :=
  match skuVars.find? (fun sv => sv != "" && variantSku != "" &&
      (variantSku == sv || containsStr variantSku sv || containsStr sv variantSku)) with
  | some sv => (20, [MatchReason.skuMatch sv])
  | none => (0, [])

/-- part_000 lines 159-196: score of one (csvProduct, shopifyProduct)
pair, name block first, then every variant in order. -/
def scoreProduct (csv : CsvProduct) (p : Product) : Nat × List MatchReason :=
  let csvName := csv.name.getD ""
  let csvSku := csv.sku.getD ""
  let nameRes := nameCheck csvName p.title
  let variantRes := p.variants.map (fun v => variantSkuCheck (skuVariations csvSku) (v.sku.getD ""))
  (nameRes.1 + (variantRes.map Prod.fst).sum, nameRes.2 ++ (variantRes.map Prod.snd).flatten)

/-- Stable insertion for the descending-score sort: an element is placed
before the first element whose score does not exceed it, so earlier
elements keep their relative position among equal scores. -/
def insertByScore (m : MatchEntry) : List MatchEntry → List MatchEntry
  | [] => [m]
  | x :: xs => if x.matchScore ≤ m.matchScore then m :: x :: xs else x :: insertByScore m xs

/-- Model of part_000 line 199, `matches.sort((a, b) => b.matchScore - a.matchScore)`:
JS sort with a consistent comparator is stable, modelled by stable
insertion sort. -/
def sortByScoreDesc : List MatchEntry → List MatchEntry
  | [] => []
  | x :: xs => insertByScore x (sortByScoreDesc xs)

/-- part_000 `findMatches`: entries with positive score, in catalog
order, sorted descending by score (stably). -/
def findMatches (csv : CsvProduct) (catalog : List Product) : List MatchEntry :=
  sortByScoreDesc (catalog.filterMap (fun p =>
    let res := scoreProduct csv p
    if res.1 > 0 then some ⟨p, res.1, res.2⟩ else none))

/-- part_000 lines 265-267: the endpoint uses `matches[0]` when the match
list is nonempty. -/
def bestMatch (csv : CsvProduct) (catalog : List Product) : Option MatchEntry :=
  (findMatches csv catalog).head?

/-- Fixed contribution of each scoring rule (part_000: 10 for a name
match, 20 for a SKU match). -/
def reasonPoints : MatchReason → Nat
  | MatchReason.nameMatch _ => 10
  | MatchReason.skuMatch _ => 20

def maxScoreOf (csv : CsvProduct) (catalog : List Product) : Nat :=
  (catalog.map (fun p => (scoreProduct csv p).1)).foldr Nat.max 0

/-- Modelled from the spec's words (§4.2 Selection): pick the entry with
the strictly highest matchScore, ties broken by catalog order (first
encountered wins); if the best score is below the minimum threshold
(positive score, i.e. the best is 0) there is no matched entry. -/
def selectBySpec (csv : CsvProduct) (catalog : List Product) : Option Product :=
  if maxScoreOf csv catalog = 0 then none
  else catalog.find? (fun p => (scoreProduct csv p).1 == maxScoreOf csv catalog)

/-- First element attaining the maximal score (later elements win only
with a strictly greater score). -/
def firstMaxAux : List MatchEntry → Option MatchEntry
  | [] => none
  | x :: xs =>
    match firstMaxAux xs with
    | none => some x
    | some y => if x.matchScore < y.matchScore then some y else some x

/-! ### server.js matcher: the `matchedProduct` predicate (lines 250-299) -/

/-- server.js lines 264-267: strip an anchored, case-insensitive brand
pattern — the brand letters (compared lower-cased), optional whitespace,
one hyphen, optional whitespace — from the start; otherwise unchanged. -/
def stripBrandAt (brandLower : List Char) (s : List Char) : List Char :=
  if (s.take brandLower.length).map Char.toLower = brandLower then
    match (s.drop brandLower.length).dropWhile isJsWs with
    | '-' :: rest => rest.dropWhile isJsWs
    | _ => s
  else s

/-- server.js lines 264-267: `csvName` with the `LOFT.73` or `LOFT73`
brand marker stripped (both replaces applied in order), then trimmed. -/
def serverNameNoBrand (csvName : String) : String :=
  jsTrim ⟨stripBrandAt ("loft73").data (stripBrandAt ("loft.73").data csvName.data)⟩

/-- server.js lines 292-294: SKU with whitespace and hyphens removed,
lower-cased. -/
def cleanSku (s : String) : String :=
  ⟨(s.data.filter (fun c => !(isWsDash c))).map Char.toLower⟩

/-- server.js lines 280-295: the per-variant SKU test (strategy 6). -/
def serverVariantSkuMatches (csvSku : String) (v : Variant) : Bool :=
  match v.sku with
  | none => false
  | some sk =>
    if sk = "" then false
    else
      let variantSku := jsTrim sk
      variantSku == csvSku || containsStr variantSku csvSku || containsStr csvSku variantSku ||
        cleanSku variantSku == cleanSku csvSku

/-- server.js lines 254-298: the boolean predicate passed to
`allProducts.find`, strategies 1-6 in order. -/
def serverProductMatches (csv : CsvProduct) (p : Product) : Bool :=
  let csvName := jsTrim (csv.name.getD "")
  let csvSku := jsTrim (csv.sku.getD "")
  let shopifyTitle := jsTrim (p.title.getD "")
  if shopifyTitle == csvName then true
  else if jsLower shopifyTitle == jsLower csvName then true
  else if jsLower shopifyTitle == jsLower (serverNameNoBrand csvName) then true
  else if containsStr (jsLower shopifyTitle) (jsLower (serverNameNoBrand csvName)) then true
  else if containsStr (jsLower shopifyTitle) (jsLower csvName) then true
  else if containsStr (jsLower csvName) (jsLower shopifyTitle) then true
  else if csvSku != "" then p.variants.any (serverVariantSkuMatches csvSku)
  else false

/-- server.js line 254: `allProducts.find(...)` — the first catalog entry
satisfying the predicate. -/
def serverMatchedProduct (csv : CsvProduct) (catalog : List Product) : Option Product :=
  catalog.find? (serverProductMatches csv)

/-- Modelled from the spec's words for C8: strip every non-alphanumeric
character (the spec claims the SKU rule compares after this stripping). -/
def stripNonAlnumSpec (s : String) : String := ⟨s.data.filter Char.isAlphanum⟩

/-- server.js lines 304-311: walk the matched product's variants; where
`inventory_quantity` is defined, set `available` to it and add it to the
running `totalAvailable` (the addition is reassociated to the right,
which does not change the integer sum). -/
def applyInventory : List Variant → List Variant × Int
  | [] => ([], 0)
  | v :: vs =>
    let rest := applyInventory vs
    match v.inventory_quantity with
    | some q => ({ v with available := some q } :: rest.1, q + rest.2)
    | none => (v :: rest.1, rest.2)

/-! ### Catalog fetch loops -/

/-- One page response of the cursor (page_info) pagination used by
part_001's `fetchAllProducts`: a successful page carries its products and
whether the Link header advertises a parseable next-page cursor; `fail`
covers both a non-success HTTP status and a thrown fetch error (both
`break` in the source).  The oracle is indexed by request number. -/
inductive PageResp where
  | ok (products : List Product) (hasNext : Bool)
  | fail
  deriving DecidableEq, Repr

/-- part_001 lines 102-155 `fetchAllProducts`: the while loop, fuel =
remaining page budget (cap 10), `k` = requests already issued; returns
the accumulated products and the total number of page requests. -/
def fetchFrom (oracle : Nat → PageResp) : Nat → Nat → List Product → List Product × Nat
  | 0, k, acc => (acc, k)
  | fuel+1, k, acc =>
    match oracle k with
    | PageResp.fail => (acc, k + 1)
    | PageResp.ok ps false => (acc ++ ps, k + 1)
    | PageResp.ok ps true => fetchFrom oracle fuel (k + 1) (acc ++ ps)

def fetchAllProducts (oracle : Nat → PageResp) : List Product × Nat :=
  fetchFrom oracle 10 0 []

/-- Concatenation of the page contents `ps k, ps (k+1), ...` for `n`
pages. -/
def pagesJoinFrom (ps : Nat → List Product) (k : Nat) : Nat → List Product
  | 0 => []
  | n+1 => ps k ++ pagesJoinFrom ps (k + 1) n

/-- One page response of the since_id pagination used by server.js lines
167-218: a page either succeeds with its product list or fails (non-ok
status, which the source turns into a thrown error). -/
inductive SPageResp where
  | ok (products : List Product)
  | fail
  deriving DecidableEq, Repr

/-- server.js line 195: `Math.max(...ids)` over the page (only evaluated
on nonempty pages). -/
def maxIdOf (ps : List Product) : Nat := ps.foldl (fun m p => Nat.max m p.id) 0

/-- server.js lines 167-218, the since_id fetch loop of the
products-availability endpoint: fuel = remaining page budget (cap 100),
`k` = requests already issued, `total` = the product count fetched
beforehand (lines 148-157).  A failed page throws (`Except.error`); a
zero-entry page or reaching `total` ends the loop normally.  The result
also carries the number of page requests issued. -/
def sFetch (oracle : Nat → SPageResp) (total : Nat) :
    Nat → Nat → Nat → List Product → Except Unit (List Product) × Nat
  | 0, k, _, acc => (Except.ok acc, k)
  | fuel+1, k, _sinceId, acc =>
    match oracle k with
    | SPageResp.fail => (Except.error (), k + 1)
    | SPageResp.ok ps =>
      if ps.length = 0 then (Except.ok acc, k + 1)
      else if total ≤ (acc ++ ps).length then (Except.ok (acc ++ ps), k + 1)
      else sFetch oracle total fuel (k + 1) (maxIdOf ps) (acc ++ ps)

def serverFetchAll (oracle : Nat → SPageResp) (total : Nat) :
    Except Unit (List Product) × Nat :=
  sFetch oracle total 100 0 0 []

/-- Number of products delivered by a page response (a failed page
delivers none). -/
def pageLen : SPageResp → Nat
  | SPageResp.ok ps => ps.length
  | SPageResp.fail => 0

/-- Total number of products delivered by the `n` page responses starting
at request `k`. -/
def sumPages (oracle : Nat → SPageResp) (k : Nat) : Nat → Nat
  | 0 => 0
  | n+1 => pageLen (oracle k) + sumPages oracle (k + 1) n

/-! ### Inventory chunking (part_001 lines 160-177, part_002 lines 859-875) -/

/-- `fetchInventoryLevels`: the chunking loop `for (i = 0; i < len; i += 50)
chunks.push(variantIds.slice(i, i + 50))`, phrased as take/drop
recursion. -/
def chunk50 (l : List Nat) : List (List Nat) :=
  if l.isEmpty then [] else l.take 50 :: chunk50 (l.drop 50)
termination_by l.length
decreasing_by
  simp only [List.length_drop]
  cases l with
  | nil => simp_all
  | cons x xs => simp; omega

/-- Whether some SKU variation qualifies against this variant's SKU
(part_000 lines 176-186, the condition of the inner loop). -/
def variantQualifies (csvSku : String) (v : Variant) : Bool :=
  ((skuVariations csvSku).find? (fun sv => sv != "" && (v.sku.getD "") != "" &&
      ((v.sku.getD "") == sv || containsStr (v.sku.getD "") sv ||
        containsStr sv (v.sku.getD "")))).isSome

/-! ## Theorems -/

theorem chunk50_nil : chunk50 [] = [] := by
  rw [chunk50]
  rfl

theorem chunk50_cons (x : Nat) (xs : List Nat) :
    chunk50 (x :: xs) = (x :: xs).take 50 :: chunk50 ((x :: xs).drop 50) := by
  rw [chunk50]
  rfl

theorem chunk50_spec_aux : ∀ (n : Nat) (l : List Nat), l.length ≤ n →
    (chunk50 l).flatten = l ∧ ((chunk50 l).all fun c => decide (c.length ≤ 50)) = true := by
  intro n
  induction n with
  | zero =>
    intro l h
    have : l = [] := List.eq_nil_of_length_eq_zero (Nat.le_zero.mp h)
    subst this
    simp [chunk50_nil]
  | succ n ih =>
    intro l h
    cases l with
    | nil => simp [chunk50_nil]
    | cons x xs =>
      have hdrop : ((x :: xs).drop 50).length ≤ n := by
        simp only [List.length_drop, List.length_cons]
        simp only [List.length_cons] at h
        omega
      obtain ⟨h1, h2⟩ := ih _ hdrop
      rw [chunk50_cons]
      constructor
      · rw [List.flatten_cons, h1, List.take_append_drop]
      · simp only [List.all_cons, h2, Bool.and_true, decide_eq_true_eq]
        exact List.length_take_le _ _

/-- C10: the inventory-lookup helper `fetchInventoryLevels` partitions the
variant-id list into consecutive chunks of at most 50 ids: flattening the
chunks restores exactly the original list (every id once, in order), and
every chunk — hence every inventory request — has length at most 50. -/
theorem inventory_chunks_partition (l : List Nat) :
    (chunk50 l).flatten = l ∧ ((chunk50 l).all fun c => decide (c.length ≤ 50)) = true :=
  chunk50_spec_aux l.length l (Nat.le_refl _)

/-- C9: server.js lines 304-311 — `totalAvailable` is the sum, over the
matched entry's variants, of the post-loop `available` quantity (missing
contributes 0), and `available` is exactly the fallback to
`inventory_quantity` (missing contributes 0), because this code path
performs no live availability fetch. -/
theorem total_available_sums_variants (vs : List Variant)
    (h : ∀ v ∈ vs, v.available = none) :
    (applyInventory vs).2 = ((applyInventory vs).1.map (fun v => v.available.getD 0)).sum ∧
    (applyInventory vs).2 = (vs.map (fun v => v.inventory_quantity.getD 0)).sum := by
  induction vs with
  | nil => simp [applyInventory]
  | cons v vs ih =>
    have hv : v.available = none := h v (List.mem_cons_self v vs)
    obtain ⟨ih1, ih2⟩ := ih (fun w hw => h w (List.mem_cons_of_mem v hw))
    cases hq : v.inventory_quantity with
    | none =>
      constructor
      · simp [applyInventory, hq, hv, ← ih1]
      · simp [applyInventory, hq, ← ih2]
    | some q =>
      constructor
      · simp [applyInventory, hq, ← ih1]
      · simp [applyInventory, hq, ← ih2]

theorem total_available_sums_variants_witness :
    (applyInventory [⟨1, none, none, some 5, none⟩, ⟨2, none, none, none, none⟩]).2 =
      (((applyInventory [⟨1, none, none, some 5, none⟩, ⟨2, none, none, none, none⟩]).1.map
        (fun v => v.available.getD 0)).sum) :=
  (total_available_sums_variants
    [⟨1, none, none, some 5, none⟩, ⟨2, none, none, none, none⟩] (by decide)).1

/-- C3 (counterexample): the name tiers are not strictly ordered by
points.  An exact title match (query "Aurora Dress" against title
"Aurora Dress"), a brand-stripped core match (query
"LOFT.73 - Aurora Dress" against title "Aurora Dress") and a substring
match (query "Aurora" against title "Aurora Dress") all contribute the
same 10 points, so the exact tier does not contribute strictly more than
the core tier. -/
theorem name_tiers_flat_counterexample :
    (nameCheck "Aurora Dress" (some "Aurora Dress")).1 = 10 ∧
    (nameCheck "LOFT.73 - Aurora Dress" (some "Aurora Dress")).1 = 10 ∧
    (nameCheck "Aurora" (some "Aurora Dress")).1 = 10 ∧
    ¬ (nameCheck "Aurora Dress" (some "Aurora Dress")).1 >
        (nameCheck "LOFT.73 - Aurora Dress" (some "Aurora Dress")).1 := by
  decide

/-- C3 (amended): the name variations are evaluated in a fixed priority
order and only the first matching one contributes (at most one reason),
but every name tier contributes the same fixed 10 points — the tiers are
not strictly ordered by weight. -/
theorem name_score_flat (csvName : String) (title : Option String) :
    (nameCheck csvName title).1 = 10 * (nameCheck csvName title).2.length ∧
    (nameCheck csvName title).2.length ≤ 1 := by
  unfold nameCheck
  cases h : (nameVariations csvName).find?
      (fun v => v != "" && containsStr (jsLower (title.getD "")) (jsLower v)) <;> simp [h]

/-- C4 (counterexample): more than one variant of the same entry can
contribute SKU points.  With query SKU "AUR-001" and an entry whose two
variants both carry SKU "AUR-001", the pair scores 40 (two 20-point SKU
contributions, two SKU reasons): the `break` in part_000 line 184 leaves
only the inner loop over SKU variations, not the loop over variants. -/
theorem sku_multi_variant_counterexample :
    scoreProduct ⟨none, some "AUR-001"⟩
        ⟨1, none, [⟨1, some "AUR-001", none, none, none⟩, ⟨2, some "AUR-001", none, none, none⟩]⟩ =
      (40, [MatchReason.skuMatch "AUR-001", MatchReason.skuMatch "AUR-001"]) := by
  decide

theorem variantSkuCheck_fst (csvSku : String) (v : Variant) :
    (variantSkuCheck (skuVariations csvSku) (v.sku.getD "")).1 =
      if variantQualifies csvSku v then 20 else 0 := by
  unfold variantSkuCheck variantQualifies
  cases h : (skuVariations csvSku).find? (fun sv => sv != "" && (v.sku.getD "") != "" &&
      ((v.sku.getD "") == sv || containsStr (v.sku.getD "") sv ||
        containsStr sv (v.sku.getD ""))) <;> simp [h]

/-- C4 (amended): per variant at most one SKU variation contributes (the
inner break), but every qualifying variant of the entry contributes its
own 20 points: the SKU part of the pair's score is 20 times the number
of qualifying variants, not the contribution of the first one only. -/
theorem sku_score_additive_per_variant (csv : CsvProduct) (p : Product) :
    (scoreProduct csv p).1 =
      (nameCheck (csv.name.getD "") p.title).1 +
        20 * p.variants.countP (variantQualifies (csv.sku.getD "")) ∧
    ∀ skuVars s, (variantSkuCheck skuVars s).2.length ≤ 1 := by
  constructor
  · unfold scoreProduct
    simp only
    congr 1
    induction p.variants with
    | nil => simp
    | cons v vs ih =>
      simp only [List.map_cons, List.sum_cons, List.countP_cons, ih, variantSkuCheck_fst]
      cases h : variantQualifies (csv.sku.getD "") v <;> (simp [h]; try ring)
  · intro skuVars s
    unfold variantSkuCheck
    cases h : skuVars.find? (fun sv => sv != "" && s != "" &&
        (s == sv || containsStr s sv || containsStr sv s)) <;> simp [h]

theorem sku_score_additive_per_variant_witness :
    (scoreProduct ⟨none, some "AB"⟩ ⟨1, none, [⟨1, some "AB", none, none, none⟩]⟩).1 =
      (nameCheck "" none).1 + 20 * ([⟨1, some "AB", none, none, none⟩] :
        List Variant).countP (variantQualifies "AB") :=
  (sku_score_additive_per_variant ⟨none, some "AB"⟩
    ⟨1, none, [⟨1, some "AB", none, none, none⟩]⟩).1

theorem nameCheck_explained (csvName : String) (title : Option String) :
    (nameCheck csvName title).1 = ((nameCheck csvName title).2.map reasonPoints).sum ∧
    ((nameCheck csvName title).2 = [] ↔ (nameCheck csvName title).1 = 0) := by
  unfold nameCheck
  cases h : (nameVariations csvName).find?
      (fun v => v != "" && containsStr (jsLower (title.getD "")) (jsLower v)) <;>
    simp [h, reasonPoints]

theorem variantSkuCheck_explained (skuVars : List String) (s : String) :
    (variantSkuCheck skuVars s).1 = ((variantSkuCheck skuVars s).2.map reasonPoints).sum ∧
    ((variantSkuCheck skuVars s).2 = [] ↔ (variantSkuCheck skuVars s).1 = 0) := by
  unfold variantSkuCheck
  cases h : skuVars.find? (fun sv => sv != "" && s != "" &&
      (s == sv || containsStr s sv || containsStr sv s)) <;> simp [h, reasonPoints]

theorem scoreProduct_explained (csv : CsvProduct) (p : Product) :
    (scoreProduct csv p).1 = ((scoreProduct csv p).2.map reasonPoints).sum ∧
    ((scoreProduct csv p).2 = [] ↔ (scoreProduct csv p).1 = 0) := by
  unfold scoreProduct
  simp only
  obtain ⟨hn1, hn2⟩ := nameCheck_explained (csv.name.getD "") p.title
  have hvar : ∀ vs : List Variant,
      ((vs.map (fun v => variantSkuCheck (skuVariations (csv.sku.getD "")) (v.sku.getD ""))).map
          Prod.fst).sum =
        ((((vs.map (fun v => variantSkuCheck (skuVariations (csv.sku.getD "")) (v.sku.getD ""))).map
          Prod.snd).flatten.map reasonPoints)).sum ∧
      (((vs.map (fun v => variantSkuCheck (skuVariations (csv.sku.getD "")) (v.sku.getD ""))).map
          Prod.snd).flatten = [] ↔
        ((vs.map (fun v => variantSkuCheck (skuVariations (csv.sku.getD "")) (v.sku.getD ""))).map
          Prod.fst).sum = 0) := by
    intro vs
    induction vs with
    | nil => simp
    | cons v vs ih =>
      obtain ⟨ih1, ih2⟩ := ih
      obtain ⟨hv1, hv2⟩ := variantSkuCheck_explained (skuVariations (csv.sku.getD ""))
        (v.sku.getD "")
      simp only [List.map_cons, List.sum_cons, List.flatten_cons, List.map_append,
        List.sum_append, List.append_eq_nil]
      constructor
      · rw [ih1, hv1]
      · rw [hv2, ih2]
        omega
  obtain ⟨hv1, hv2⟩ := hvar p.variants
  constructor
  · simp only [List.map_append, List.sum_append]
    rw [hn1, hv1]
  · simp only [List.append_eq_nil]
    rw [hn2, hv2]
    omega

theorem mem_insertByScore {m x : MatchEntry} {l : List MatchEntry} :
    x ∈ insertByScore m l ↔ x = m ∨ x ∈ l := by
  induction l with
  | nil => simp [insertByScore]
  | cons y ys ih =>
    unfold insertByScore
    split
    · simp
    · simp only [List.mem_cons, ih]
      tauto

theorem mem_sortByScoreDesc {x : MatchEntry} {l : List MatchEntry} :
    x ∈ sortByScoreDesc l ↔ x ∈ l := by
  induction l with
  | nil => simp [sortByScoreDesc]
  | cons y ys ih =>
    simp only [sortByScoreDesc, mem_insertByScore, ih, List.mem_cons]

/-- C5: every match produced by part_000's matcher is explained by its
reasons — per (query, entry) pair the score equals the sum of the fixed
contributions (10 per name reason, 20 per SKU reason) of exactly the
reasons recorded, reasons being appended in rule-firing order (name
block first, then variants in order), and the reason list is empty iff
the score is 0; the same holds for every entry of `findMatches`. -/
theorem score_explained_by_reasons :
    (∀ csv p, (scoreProduct csv p).1 = ((scoreProduct csv p).2.map reasonPoints).sum ∧
      ((scoreProduct csv p).2 = [] ↔ (scoreProduct csv p).1 = 0)) ∧
    (∀ csv catalog m, m ∈ findMatches csv catalog →
      m.matchScore = (m.matchReasons.map reasonPoints).sum ∧
      (m.matchReasons = [] ↔ m.matchScore = 0)) := by
  refine ⟨scoreProduct_explained, ?_⟩
  intro csv catalog m hm
  unfold findMatches at hm
  rw [mem_sortByScoreDesc] at hm
  obtain ⟨p, _, hp⟩ := List.mem_filterMap.mp hm
  simp only at hp
  split at hp
  · obtain rfl := (Option.some_inj.mp hp).symm
    exact scoreProduct_explained csv p
  · exact absurd hp (by simp)

theorem score_explained_by_reasons_witness :
    (⟨⟨2, some "Aurora Dress", []⟩, 10, [MatchReason.nameMatch "Aurora Dress"]⟩ :
        MatchEntry).matchScore =
      ((⟨⟨2, some "Aurora Dress", []⟩, 10, [MatchReason.nameMatch "Aurora Dress"]⟩ :
        MatchEntry).matchReasons.map reasonPoints).sum :=
  (score_explained_by_reasons.2 ⟨some "Aurora Dress", none⟩ [⟨2, some "Aurora Dress", []⟩]
    ⟨⟨2, some "Aurora Dress", []⟩, 10, [MatchReason.nameMatch "Aurora Dress"]⟩ (by decide)).1

theorem natMax_eq_left {a b : Nat} (h : b ≤ a) : Nat.max a b = a := Nat.max_eq_left h

theorem natMax_eq_right {a b : Nat} (h : a ≤ b) : Nat.max a b = b := Nat.max_eq_right h

theorem head?_insertByScore (m : MatchEntry) (l : List MatchEntry) :
    (insertByScore m l).head? = some (match l with
      | [] => m
      | x :: _ => if x.matchScore ≤ m.matchScore then m else x) := by
  cases l with
  | nil => rfl
  | cons x xs =>
    unfold insertByScore
    split
    · rename_i hxm
      dsimp only
      rw [if_pos hxm]
      rfl
    · rename_i hxm
      dsimp only
      rw [if_neg hxm]
      rfl

theorem head?_sortByScoreDesc (l : List MatchEntry) :
    (sortByScoreDesc l).head? = firstMaxAux l := by
  induction l with
  | nil => rfl
  | cons x xs ih =>
    rw [sortByScoreDesc, head?_insertByScore, firstMaxAux]
    cases hs : sortByScoreDesc xs with
    | nil =>
      rw [hs] at ih
      simp only [List.head?_nil] at ih
      rw [← ih]
    | cons y ys =>
      rw [hs] at ih
      simp only [List.head?_cons] at ih
      rw [← ih]
      simp only
      rcases le_or_lt y.matchScore x.matchScore with hle | hlt
      · rw [if_pos hle, if_neg (by omega)]
      · rw [if_neg (by omega), if_pos hlt]

theorem maxScoreOf_cons (csv : CsvProduct) (p : Product) (rest : List Product) :
    maxScoreOf csv (p :: rest) = Nat.max (scoreProduct csv p).1 (maxScoreOf csv rest) := by
  simp [maxScoreOf]

theorem firstMaxAux_cons (x : MatchEntry) (xs : List MatchEntry) :
    firstMaxAux (x :: xs) = some (match firstMaxAux xs with
      | none => x
      | some y => if x.matchScore < y.matchScore then y else x) := by
  rw [firstMaxAux]
  cases firstMaxAux xs with
  | none => rfl
  | some y =>
    dsimp only
    split <;> rfl

theorem firstMax_filterMap (csv : CsvProduct) : ∀ catalog : List Product,
    (firstMaxAux (catalog.filterMap (fun p =>
        let res := scoreProduct csv p
        if res.1 > 0 then some ⟨p, res.1, res.2⟩ else none)) = none →
      maxScoreOf csv catalog = 0) ∧
    (∀ m, firstMaxAux (catalog.filterMap (fun p =>
        let res := scoreProduct csv p
        if res.1 > 0 then some ⟨p, res.1, res.2⟩ else none)) = some m →
      m.matchScore = maxScoreOf csv catalog ∧ 0 < maxScoreOf csv catalog ∧
        catalog.find? (fun p => (scoreProduct csv p).1 == maxScoreOf csv catalog) =
          some m.shopifyProduct) := by
  intro catalog
  induction catalog with
  | nil =>
    constructor
    · intro _
      simp [maxScoreOf]
    · intro m hm
      simp [List.filterMap_nil, firstMaxAux] at hm
  | cons p rest ih =>
    obtain ⟨ihn, ihs⟩ := ih
    rw [List.filterMap_cons]
    dsimp only
    by_cases hp : 0 < (scoreProduct csv p).1
    · rw [if_pos (by omega : (scoreProduct csv p).1 > 0), firstMaxAux_cons]
      constructor
      · intro hnone
        exact absurd hnone (by simp)
      · intro m hm
        rw [Option.some_inj] at hm
        rw [maxScoreOf_cons]
        cases hfm : firstMaxAux (rest.filterMap (fun p =>
            let res := scoreProduct csv p
            if res.1 > 0 then some ⟨p, res.1, res.2⟩ else none)) with
        | none =>
          have hb := ihn hfm
          rw [hfm] at hm
          dsimp only at hm
          subst hm
          have hmax : Nat.max (scoreProduct csv p).1 (maxScoreOf csv rest) =
              (scoreProduct csv p).1 := natMax_eq_left (by omega)
          rw [hmax]
          refine ⟨rfl, hp, ?_⟩
          exact List.find?_cons_of_pos _ (by simp)
        | some y =>
          obtain ⟨hy, hypos, hyfind⟩ := ihs y hfm
          rw [hfm] at hm
          dsimp only at hm
          by_cases hlt : (scoreProduct csv p).1 < y.matchScore
          · rw [if_pos hlt] at hm
            subst hm
            have hmax : Nat.max (scoreProduct csv p).1 (maxScoreOf csv rest) =
                maxScoreOf csv rest := natMax_eq_right (by omega)
            rw [hmax]
            refine ⟨hy, hypos, ?_⟩
            rw [List.find?_cons_of_neg _ (by simp; omega)]
            exact hyfind
          · rw [if_neg hlt] at hm
            subst hm
            have hmax : Nat.max (scoreProduct csv p).1 (maxScoreOf csv rest) =
                (scoreProduct csv p).1 := natMax_eq_left (by omega)
            rw [hmax]
            refine ⟨rfl, hp, ?_⟩
            exact List.find?_cons_of_pos _ (by simp)
    · have hp0 : (scoreProduct csv p).1 = 0 := by omega
      rw [if_neg (by omega)]
      constructor
      · intro hnone
        have hb := ihn hnone
        rw [maxScoreOf_cons, hb, hp0]
        decide
      · intro m hm
        obtain ⟨hy, hypos, hyfind⟩ := ihs m hm
        rw [maxScoreOf_cons]
        have hmax : Nat.max (scoreProduct csv p).1 (maxScoreOf csv rest) =
            maxScoreOf csv rest := natMax_eq_right (by omega)
        rw [hmax]
        refine ⟨hy, hypos, ?_⟩
        rw [List.find?_cons_of_neg _ (by simp; omega)]
        exact hyfind

/-- C1: part_000's matcher selects, among all catalog entries scored
against the query, the entry with the strictly highest `matchScore`,
ties broken by catalog order (first encountered wins): the head of the
stably sorted match list is exactly the spec's selection, and when every
score is below the threshold (no positive score) there is no matched
entry. -/
theorem best_match_selects_first_highest (csv : CsvProduct) (catalog : List Product) :
    (bestMatch csv catalog).map MatchEntry.shopifyProduct = selectBySpec csv catalog := by
  unfold bestMatch findMatches selectBySpec
  rw [head?_sortByScoreDesc]
  obtain ⟨hn, hs⟩ := firstMax_filterMap csv catalog
  cases hfm : firstMaxAux (catalog.filterMap (fun p =>
      let res := scoreProduct csv p
      if res.1 > 0 then some ⟨p, res.1, res.2⟩ else none)) with
  | none =>
    rw [if_pos (hn hfm)]
    rfl
  | some m =>
    obtain ⟨_, hpos, hfind⟩ := hs m hfm
    rw [if_neg (by omega), hfind]
    rfl

/-- C2 (counterexample): in server.js, a QueryRecord with both `name`
and `sku` absent does get a matched entry: the empty name is a substring
of every title (strategies 3-5 use `includes`), so the find-based
matcher returns the first entry of any nonempty catalog. -/
theorem empty_query_matches_counterexample :
    serverMatchedProduct ⟨none, none⟩ [⟨1, some "Aurora", []⟩] = some ⟨1, some "Aurora", []⟩ ∧
    serverMatchedProduct ⟨none, none⟩ [⟨1, some "Aurora", []⟩] ≠ none := by
  decide

theorem nameVariations_empty : nameVariations "" = ["", "", "", "", "", "", ""] := by
  decide

theorem skuVariations_empty : skuVariations "" = [] := by
  decide

theorem nameCheck_empty (t : Option String) : nameCheck "" t = (0, []) := by
  unfold nameCheck
  rw [nameVariations_empty]
  simp [List.find?]

theorem variantSkuCheck_nil (s : String) : variantSkuCheck [] s = (0, []) := rfl

theorem scoreProduct_empty (csv : CsvProduct) (hn : csv.name.getD "" = "")
    (hs : csv.sku.getD "" = "") (p : Product) : scoreProduct csv p = (0, []) := by
  unfold scoreProduct
  simp only [hn, hs, skuVariations_empty, nameCheck_empty, variantSkuCheck_nil, Prod.mk.injEq,
    Nat.zero_add, List.nil_append]
  constructor
  · induction p.variants with
    | nil => rfl
    | cons v vs _ih => simp
  · induction p.variants with
    | nil => rfl
    | cons v vs _ih => simp

theorem jsTrim_empty : jsTrim "" = "" := rfl

theorem jsLower_empty : jsLower "" = "" := rfl

theorem serverNameNoBrand_empty : serverNameNoBrand "" = "" := rfl

theorem containsStr_empty_pat (s : String) : containsStr s "" = true := by
  unfold containsStr
  cases h : s.data with
  | nil => rfl
  | cons x xs => rw [containsList]; simp

theorem find?_all_true {α : Type} (p : α → Bool) (l : List α) (h : ∀ x, p x = true) :
    l.find? p = l.head? := by
  cases l with
  | nil => rfl
  | cons x xs =>
    rw [List.find?_cons_of_pos _ (h x)]
    rfl

theorem serverProductMatches_empty (csv : CsvProduct) (hn : csv.name.getD "" = "")
    (hs : csv.sku.getD "" = "") (p : Product) : serverProductMatches csv p = true := by
  unfold serverProductMatches
  rw [hn, hs]
  simp only [jsTrim_empty, serverNameNoBrand_empty, jsLower_empty, containsStr_empty_pat,
    if_true, ite_self]

/-- C2 (amended): for a QueryRecord whose name and sku are both absent
or the empty string, the scoring matcher of part_000 behaves as claimed:
every pair scores 0 with no reasons, and `findMatches` returns no match
for any catalog (a normal result, not an error).  The find-based matcher
of server.js, however, returns the first entry of the catalog (so a
nonempty catalog does yield a matched entry), because the empty query
name is a substring of every title. -/
theorem empty_query_amended (csv : CsvProduct) (hn : csv.name.getD "" = "")
    (hs : csv.sku.getD "" = "") :
    (∀ p, scoreProduct csv p = (0, [])) ∧
    (∀ catalog, findMatches csv catalog = []) ∧
    (∀ catalog : List Product, serverMatchedProduct csv catalog = catalog.head?) := by
  refine ⟨scoreProduct_empty csv hn hs, ?_, ?_⟩
  · intro catalog
    unfold findMatches
    have h0 : catalog.filterMap (fun p =>
        let res := scoreProduct csv p
        if res.1 > 0 then some (⟨p, res.1, res.2⟩ : MatchEntry) else none) = [] := by
      refine List.filterMap_eq_nil_iff.mpr (fun p _ => ?_)
      rw [scoreProduct_empty csv hn hs p]
      rfl
    rw [h0]
    rfl
  · intro catalog
    exact find?_all_true _ catalog (serverProductMatches_empty csv hn hs)

theorem empty_query_amended_witness :
    findMatches ⟨none, none⟩ [⟨1, some "Aurora", []⟩] = [] ∧
    serverMatchedProduct ⟨none, none⟩ [⟨1, some "Aurora", []⟩] =
      ([⟨1, some "Aurora", []⟩] : List Product).head? :=
  ⟨(empty_query_amended ⟨none, none⟩ rfl rfl).2.1 [⟨1, some "Aurora", []⟩],
   (empty_query_amended ⟨none, none⟩ rfl rfl).2.2 [⟨1, some "Aurora", []⟩]⟩

/-- C6 (counterexample): in server.js's fetch loop a failed second page
throws: with page 0 delivering one product and page 1 failing, the loop's
result is the error, not the accumulated one-product partial catalog the
claim promises. -/
theorem server_fetch_discards_counterexample :
    (serverFetchAll (fun k => if k = 0 then SPageResp.ok [⟨7, none, []⟩] else SPageResp.fail)
      5).1 = Except.error () ∧
    ∀ l, (serverFetchAll (fun k => if k = 0 then SPageResp.ok [⟨7, none, []⟩] else SPageResp.fail)
      5).1 ≠ Except.ok l := by
  have he : (serverFetchAll (fun k => if k = 0 then SPageResp.ok [⟨7, none, []⟩]
      else SPageResp.fail) 5).1 = Except.error () := rfl
  refine ⟨he, fun l h => ?_⟩
  rw [he] at h
  exact Except.noConfusion h

theorem fetchFrom_fail (po : Nat → PageResp) (ps : Nat → List Product) :
    ∀ (j : Nat), ∀ (b k : Nat) (acc : List Product), j < b →
      (∀ i, i < j → po (k + i) = PageResp.ok (ps (k + i)) true) →
      po (k + j) = PageResp.fail →
      fetchFrom po b k acc = (acc ++ pagesJoinFrom ps k j, k + j + 1) := by
  intro j
  induction j with
  | zero =>
    intro b k acc hb _ hf
    cases b with
    | zero => omega
    | succ b =>
      rw [fetchFrom]
      rw [Nat.add_zero] at hf
      rw [hf]
      simp [pagesJoinFrom]
  | succ n ih =>
    intro b k acc hb hok hf
    cases b with
    | zero => omega
    | succ b =>
      have h0 : po (k + 0) = PageResp.ok (ps (k + 0)) true := hok 0 (by omega)
      rw [Nat.add_zero] at h0
      rw [fetchFrom, h0]
      dsimp only
      have hrec := ih b (k + 1) (acc ++ ps k) (by omega)
        (fun i hi => by
          have := hok (i + 1) (by omega)
          have harith : k + (i + 1) = k + 1 + i := by omega
          rwa [harith] at this)
        (by
          have harith : k + (n + 1) = k + 1 + n := by omega
          rwa [harith] at hf)
      rw [hrec, pagesJoinFrom]
      simp only [Prod.mk.injEq]
      exact ⟨by rw [List.append_assoc], by omega⟩

theorem sFetch_fail (so : Nat → SPageResp) (qs : Nat → List Product) (total j : Nat) :
    ∀ (fuel : Nat), ∀ (k s : Nat) (acc : List Product), k ≤ j → j < k + fuel →
      (∀ i, k ≤ i → i < j →
        so i = SPageResp.ok (qs i) ∧ qs i ≠ [] ∧
          acc.length + sumPages so k (i + 1 - k) < total) →
      so j = SPageResp.fail →
      (sFetch so total fuel k s acc).1 = Except.error () := by
  intro fuel
  induction fuel with
  | zero =>
    intro k s acc hk hfuel _ _
    omega
  | succ fuel ih =>
    intro k s acc hk hfuel hrun hfail
    by_cases hkj : k = j
    · subst hkj
      rw [sFetch, hfail]
    · have hklt : k < j := by omega
      obtain ⟨hok, hne, hlen⟩ := hrun k (Nat.le_refl k) hklt
      have hsum1 : sumPages so k (k + 1 - k) = (qs k).length := by
        have h1 : k + 1 - k = 1 := by omega
        rw [h1, sumPages, sumPages, hok]
        simp [pageLen]
      rw [hsum1] at hlen
      rw [sFetch, hok]
      dsimp only
      rw [if_neg (by simp only [List.length_eq_zero]; exact hne)]
      rw [if_neg (by simp only [List.length_append]; omega)]
      refine ih (k + 1) (maxIdOf (qs k)) (acc ++ qs k) (by omega) (by omega)
        (fun i hi1 hi2 => ?_) hfail
      obtain ⟨hoki, hnei, hleni⟩ := hrun i (by omega) hi2
      refine ⟨hoki, hnei, ?_⟩
      have hsplit : sumPages so k (i + 1 - k) = (qs k).length + sumPages so (k + 1) (i + 1 - (k + 1)) := by
        have h1 : i + 1 - k = (i + 1 - (k + 1)) + 1 := by omega
        rw [h1, sumPages, hok]
        simp [pageLen]
      rw [hsplit] at hleni
      simp only [List.length_append]
      omega

/-- C6 (amended): when a page request fails mid-sequence, part_001's
`fetchAllProducts` aborts the loop and returns the catalog accumulated
from the pages already fetched (the claimed partial-catalog behaviour),
but the fetch loop of server.js instead throws, so the whole request
fails and the accumulated entries are discarded. -/
theorem partial_fetch_behaviour :
    (∀ (po : Nat → PageResp) (ps : Nat → List Product) (j : Nat), j < 10 →
      (∀ i, i < j → po i = PageResp.ok (ps i) true) → po j = PageResp.fail →
      fetchAllProducts po = (pagesJoinFrom ps 0 j, j + 1)) ∧
    (∀ (so : Nat → SPageResp) (qs : Nat → List Product) (total j : Nat), j < 100 →
      (∀ i, i < j →
        so i = SPageResp.ok (qs i) ∧ qs i ≠ [] ∧ sumPages so 0 (i + 1) < total) →
      so j = SPageResp.fail →
      (serverFetchAll so total).1 = Except.error ()) := by
  constructor
  · intro po ps j hj hok hf
    unfold fetchAllProducts
    have h := fetchFrom_fail po ps j 10 0 [] hj
      (fun i hi => by simpa using hok i hi)
      (by simpa using hf)
    simpa using h
  · intro so qs total j hj hrun hfail
    unfold serverFetchAll
    exact sFetch_fail so qs total j 100 0 0 [] (by omega) (by omega)
      (fun i hi1 hi2 => by simpa using hrun i hi2) hfail

theorem partial_fetch_behaviour_witness :
    fetchAllProducts (fun k => if k = 0 then PageResp.ok [⟨7, none, []⟩] true else PageResp.fail) =
      (pagesJoinFrom (fun _ => [⟨7, none, []⟩]) 0 1, 2) ∧
    (serverFetchAll (fun k => if k = 0 then SPageResp.ok [⟨9, none, []⟩] else SPageResp.fail)
      5).1 = Except.error () :=
  ⟨partial_fetch_behaviour.1 (fun k => if k = 0 then PageResp.ok [⟨7, none, []⟩] true
      else PageResp.fail) (fun _ => [⟨7, none, []⟩]) 1 (by omega)
      (fun i hi => by interval_cases i; rfl) (by rfl),
   partial_fetch_behaviour.2 (fun k => if k = 0 then SPageResp.ok [⟨9, none, []⟩]
      else SPageResp.fail) (fun _ => [⟨9, none, []⟩]) 5 1 (by omega)
      (fun i hi => by interval_cases i; exact ⟨rfl, by decide, by decide⟩) (by rfl)⟩

theorem sFetch_requests_le (so : Nat → SPageResp) (total : Nat) :
    ∀ (fuel k s : Nat) (acc : List Product), (sFetch so total fuel k s acc).2 ≤ k + fuel := by
  intro fuel
  induction fuel with
  | zero =>
    intro k s acc
    rw [sFetch]
    omega
  | succ fuel ih =>
    intro k s acc
    rw [sFetch]
    cases so k with
    | fail =>
      dsimp only
      omega
    | ok ps =>
      dsimp only
      split
      · dsimp only
        omega
      · split
        · dsimp only
          omega
        · have := ih (k + 1) (maxIdOf ps) (acc ++ ps)
          omega

theorem sFetch_stops_on_empty (so : Nat → SPageResp) (total j : Nat)
    (hj : so j = SPageResp.ok []) :
    ∀ (fuel : Nat), ∀ (k s : Nat) (acc : List Product), k ≤ j →
      (sFetch so total fuel k s acc).2 ≤ j + 1 := by
  intro fuel
  induction fuel with
  | zero =>
    intro k s acc hk
    rw [sFetch]
    omega
  | succ fuel ih =>
    intro k s acc hk
    rw [sFetch]
    by_cases hkj : k = j
    · subst hkj
      rw [hj]
      dsimp only
      rw [if_pos (by simp)]
    · cases hso : so k with
      | fail =>
        dsimp only
        omega
      | ok ps =>
        dsimp only
        split
        · dsimp only
          omega
        · split
          · dsimp only
            omega
          · exact ih (k + 1) (maxIdOf ps) (acc ++ ps) (by omega)

theorem sFetch_stops_on_total (so : Nat → SPageResp) (total j : Nat) :
    ∀ (fuel : Nat), ∀ (k s : Nat) (acc : List Product), k ≤ j →
      total ≤ acc.length + sumPages so k (j + 1 - k) →
      (sFetch so total fuel k s acc).2 ≤ j + 1 := by
  intro fuel
  induction fuel with
  | zero =>
    intro k s acc hk _
    rw [sFetch]
    omega
  | succ fuel ih =>
    intro k s acc hk htot
    rw [sFetch]
    cases hso : so k with
    | fail =>
      dsimp only
      omega
    | ok ps =>
      dsimp only
      split
      · dsimp only
        omega
      · split
        · dsimp only
          omega
        · rename_i hne hlt
          by_cases hkj : k = j
          · subst hkj
            have h1 : k + 1 - k = 1 := by omega
            rw [h1, sumPages, hso] at htot
            simp [pageLen, sumPages] at htot
            simp only [List.length_append] at hlt
            omega
          · refine ih (k + 1) (maxIdOf ps) (acc ++ ps) (by omega) ?_
            have hsplit : sumPages so k (j + 1 - k) =
                ps.length + sumPages so (k + 1) (j + 1 - (k + 1)) := by
              have h1 : j + 1 - k = (j + 1 - (k + 1)) + 1 := by omega
              rw [h1, sumPages, hso]
              simp [pageLen]
            rw [hsplit] at htot
            simp only [List.length_append]
            omega

/-- C7: for every remote behaviour the since_id fetch loop of server.js
issues at most 100 page requests (its page cap) and terminates — the
embedding is a total function with fuel equal to the cap — and it stops
early: a zero-entry page at request `j` bounds the requests by `j + 1`,
and so does the accumulated count reaching the previously fetched total
count within the first `j + 1` pages. -/
theorem fetch_loop_caps (so : Nat → SPageResp) (total : Nat) :
    (serverFetchAll so total).2 ≤ 100 ∧
    (∀ j, so j = SPageResp.ok [] → (serverFetchAll so total).2 ≤ j + 1) ∧
    (∀ j, total ≤ sumPages so 0 (j + 1) → (serverFetchAll so total).2 ≤ j + 1) := by
  refine ⟨?_, ?_, ?_⟩
  · have := sFetch_requests_le so total 100 0 0 []
    simpa using this
  · intro j hj
    exact sFetch_stops_on_empty so total j hj 100 0 0 [] (Nat.zero_le j)
  · intro j htot
    refine sFetch_stops_on_total so total j 100 0 0 [] (Nat.zero_le j) ?_
    simpa using htot

theorem fetch_loop_caps_witness :
    (serverFetchAll (fun _ => SPageResp.ok []) 3).2 ≤ 0 + 1 ∧
    (serverFetchAll (fun _ => SPageResp.ok [⟨1, none, []⟩]) 1).2 ≤ 0 + 1 :=
  ⟨(fetch_loop_caps (fun _ => SPageResp.ok []) 3).2.1 0 rfl,
   (fetch_loop_caps (fun _ => SPageResp.ok [⟨1, none, []⟩]) 1).2.2 0 (by decide)⟩

theorem toNat_ofNatAux (n : Nat) (h : n.isValidChar) : (Char.ofNatAux n h).toNat = n := rfl

theorem toNat_ofNat_valid (n : Nat) (h : n.isValidChar) : (Char.ofNat n).toNat = n := by
  unfold Char.ofNat
  rw [dif_pos h]
  exact toNat_ofNatAux n h

theorem char_eq_of_toNat_eq {c1 c2 : Char} (h : c1.toNat = c2.toNat) : c1 = c2 := by
  have h2 := congrArg Char.ofNat h
  rwa [Char.ofNat_toNat, Char.ofNat_toNat] at h2

theorem toLower_toNat (c : Char) :
    (Char.toLower c).toNat = if c.toNat ≥ 65 ∧ c.toNat ≤ 90 then c.toNat + 32 else c.toNat := by
  unfold Char.toLower
  dsimp only
  split
  · rename_i h
    exact toNat_ofNat_valid _ (Or.inl (by omega))
  · rfl

theorem toUpper_toNat (c : Char) :
    (Char.toUpper c).toNat = if c.toNat ≥ 97 ∧ c.toNat ≤ 122 then c.toNat - 32 else c.toNat := by
  unfold Char.toUpper
  dsimp only
  split
  · rename_i h
    exact toNat_ofNat_valid _ (Or.inl (by omega))
  · rfl

theorem toLower_eq_of_toUpper_eq {c1 c2 : Char} (h : c1.toUpper = c2.toUpper) :
    c1.toLower = c2.toLower := by
  have hn := congrArg Char.toNat h
  rw [toUpper_toNat, toUpper_toNat] at hn
  apply char_eq_of_toNat_eq
  rw [toLower_toNat, toLower_toNat]
  split_ifs at hn ⊢ <;> omega

theorem isWsDash_iff (c : Char) :
    isWsDash c = true ↔ (c.toNat = 9 ∨ c.toNat = 10 ∨ c.toNat = 11 ∨ c.toNat = 12 ∨
      c.toNat = 13 ∨ c.toNat = 32 ∨ c.toNat = 45) := by
  simp [isWsDash, isJsWs, Bool.or_eq_true, decide_eq_true_eq, or_assoc]

theorem isWsDash_eq_of_toUpper_eq {c1 c2 : Char} (h : c1.toUpper = c2.toUpper) :
    isWsDash c1 = isWsDash c2 := by
  have hn := congrArg Char.toNat h
  rw [toUpper_toNat, toUpper_toNat] at hn
  rw [← Bool.coe_iff_coe, isWsDash_iff, isWsDash_iff]
  split_ifs at hn <;> omega

theorem cleanData_eq_of_upper_eq : ∀ (l1 l2 : List Char),
    l1.map Char.toUpper = l2.map Char.toUpper →
    (l1.filter (fun c => !(isWsDash c))).map Char.toLower =
      (l2.filter (fun c => !(isWsDash c))).map Char.toLower := by
  intro l1
  induction l1 with
  | nil =>
    intro l2 h
    cases l2 with
    | nil => rfl
    | cons c t => simp at h
  | cons c1 t1 ih =>
    intro l2 h
    cases l2 with
    | nil => simp at h
    | cons c2 t2 =>
      simp only [List.map_cons, List.cons.injEq] at h
      obtain ⟨hc, ht⟩ := h
      have hw := isWsDash_eq_of_toUpper_eq hc
      have hl := toLower_eq_of_toUpper_eq hc
      simp only [List.filter_cons]
      rw [hw]
      cases hd : isWsDash c2 <;> simp [hd, hl, ih t2 ht]

theorem cleanSku_eq_of_upper_eq {v s : String} (h : jsUpper v = jsUpper s) :
    cleanSku v = cleanSku s := by
  have hd : v.data.map Char.toUpper = s.data.map Char.toUpper := congrArg String.data h
  unfold cleanSku
  exact congrArg String.mk (cleanData_eq_of_upper_eq _ _ hd)

/-- C8 (counterexample): the SKU rule does not compare after stripping
all non-alphanumeric characters: "AB.12" and "AB12" are equal once
non-alphanumerics are stripped (the spec's wording), yet the server.js
rule does not fire for them, because the code strips only whitespace and
hyphens. -/
theorem sku_strip_counterexample :
    stripNonAlnumSpec "AB.12" = stripNonAlnumSpec "AB12" ∧
    serverVariantSkuMatches "AB12" { sku := some "AB.12" } = false := by
  decide

/-- C8 (amended): for a nonempty, trimmed variant SKU, the server.js SKU
rule fires whenever the two SKUs are equal after upper-casing (e.g.
"abc-123" vs "ABC-123") or equal after removing whitespace and hyphens
and lower-casing (e.g. "AB-12" vs "AB12") — the cleaning step strips
only the `[\s-]` class, not every non-alphanumeric character. -/
theorem sku_rule_fires (s v : String) (hv : ¬ v = "") (ht : jsTrim v = v)
    (h : jsUpper v = jsUpper s ∨ cleanSku v = cleanSku s) :
    serverVariantSkuMatches s { sku := some v } = true := by
  unfold serverVariantSkuMatches
  dsimp only
  rw [if_neg hv, ht]
  have hcl : cleanSku v = cleanSku s := by
    cases h with
    | inl hu => exact cleanSku_eq_of_upper_eq hu
    | inr hc => exact hc
  have hb : (cleanSku v == cleanSku s) = true := beq_iff_eq.mpr hcl
  simp [hb]

theorem sku_rule_fires_witness :
    serverVariantSkuMatches "abc-123" { sku := some "ABC-123" } = true ∧
    serverVariantSkuMatches "AB12" { sku := some "AB-12" } = true :=
  ⟨sku_rule_fires "abc-123" "ABC-123" (by decide) (by decide) (Or.inl (by decide)),
   sku_rule_fires "AB12" "AB-12" (by decide) (by decide) (Or.inr (by decide))⟩

end Loft73
